import Mathlib

/-!
Verification of the QBank-Generator review and image pipelines (src/app.py).

This file gives a shallow embedding of the core functions of `app.py`:
the assessment merger (`generate_overall_assessment`), the structural
pre-screener and batch review merging of `validate_content`, the response
extractor (`_extract_json_array`), the image cache key (`get_cache_key`
over MD5), the image resolution pipeline (`search_and_validate_image`),
and the vision scorer's media-type selection
(`validate_image_with_claude`, `_sniff_media_type`).

External effects (regex search, filesystem checks, HTTP, LLM calls) are
modelled as explicit oracle parameters or oracle-supplied data; machine
integers are `Nat`/`Int`/`ℚ`; JSON numbers in review verdicts are 0-10
integer scores, per the verdict schema.
-/

/-! ### Review verdict dictionaries

Python review verdicts are JSON dicts read with `.get(key, default)`.
Fields are `Option`-typed; the empty dict has every field `none`. -/

/-- Validator verdict dict (fields as produced by the validator pass and
`_make_structural_failure`). -/
structure VDict where
  question_number : Option Nat := none
  question_preview : Option String := none
  overall_accuracy_score : Option Int := none
  correct_answer_verified : Option Bool := none
  needs_revision : Option Bool := none
  factual_errors : Option (List String) := none
  distractor_issues : Option (List String) := none
  vignette_issues : Option (List String) := none
  explanation_issues : Option (List String) := none
  recommendations : Option (List String) := none
  summary : Option String := none
deriving DecidableEq, Repr

/-- Adversarial verdict dict. -/
structure ADict where
  question_number : Option Nat := none
  adversarial_score : Option Int := none
  breakability_rating : Option String := none
  alternative_answers : Option (List String) := none
  ambiguities : Option (List String) := none
  distractor_defenses : Option (List String) := none
  explanation_contradictions : Option (List String) := none
  triviality_clues : Option (List String) := none
  recommendations : Option (List String) := none
  summary : Option String := none
deriving DecidableEq, Repr

/-- The empty validator dict `{}` (extraction failure / missing slot). -/
def VDict.empty : VDict := {}

/-- The empty adversarial dict `{}`. -/
def ADict.empty : ADict := {}

/-! ### Python `round(x, 2)`

Python `round` rounds half to even.  `round2 q` models `round(q, 2)`. -/

/-- Round a rational to the nearest integer, ties to even. -/
def roundHalfEven (q : ℚ) : ℤ :=
  if q - ⌊q⌋ < 1/2 then ⌊q⌋
  else if 1/2 < q - ⌊q⌋ then ⌊q⌋ + 1
  else if ⌊q⌋ % 2 = 0 then ⌊q⌋ else ⌊q⌋ + 1

/-- Python `round(q, 2)`. -/
def round2 (q : ℚ) : ℚ := (roundHalfEven (q * 100) : ℚ) / 100

theorem roundHalfEven_intCast (n : ℤ) : roundHalfEven (n : ℚ) = n := by
  unfold roundHalfEven
  rw [Int.floor_intCast]
  norm_num

/-- `round(·, 2)` is the identity on half-integers, in particular on every
quality score `(v + (10 - a)) / 2` with integer `v`, `a`. -/
theorem round2_int_div_two (n : ℤ) : round2 ((n : ℚ) / 2) = (n : ℚ) / 2 := by
  unfold round2
  have h : ((n : ℚ) / 2) * 100 = ((50 * n : ℤ) : ℚ) := by push_cast; ring
  rw [h, roundHalfEven_intCast]
  push_cast
  ring

/-! ### `generate_overall_assessment` (app.py lines 4021-4048) -/

/-- The combined per-item assessment returned by
`generate_overall_assessment`. -/
structure Assessment where
  status : String
  quality_score : ℚ
  validator_score : ℤ
  adversarial_score : ℤ
  needs_revision : Bool
  recommendation : String
deriving DecidableEq, Repr

/-- `generate_overall_assessment(validator_result, adversarial_result,
content_type)`: scores default to 0, `needs_revision` defaults to `False`;
`quality_score = (validator_score + (10 - adversarial_score)) / 2`, stored
rounded to two decimals; status chosen by
`if quality_score >= 8 and not needs_revision / elif quality_score >= 6 / else`.
The `content_type` argument is accepted but unused, as in the source. -/
def generate_overall_assessment (validator_result : VDict)
    (adversarial_result : ADict) (contentType : String) : Assessment :=
  let validator_score : ℤ := validator_result.overall_accuracy_score.getD 0
  let adversarial_score : ℤ := adversarial_result.adversarial_score.getD 0
  let needs_revision : Bool := validator_result.needs_revision.getD false
  let quality_score : ℚ := ((validator_score : ℚ) + (10 - (adversarial_score : ℚ))) / 2
  if 8 ≤ quality_score ∧ needs_revision = false then
    { status := "✅ Approved"
      quality_score := round2 quality_score
      validator_score := validator_score
      adversarial_score := adversarial_score
      needs_revision := needs_revision
      recommendation := "Content is of high quality and safe to use." }
  else if 6 ≤ quality_score then
    { status := "⚠️ Conditional"
      quality_score := round2 quality_score
      validator_score := validator_score
      adversarial_score := adversarial_score
      needs_revision := needs_revision
      recommendation := "Content has minor issues. Review recommendations and consider revisions." }
  else
    { status := "❌ Needs Revision"
      quality_score := round2 quality_score
      validator_score := validator_score
      adversarial_score := adversarial_score
      needs_revision := needs_revision
      recommendation := "Content has significant issues and requires revision before use." }

/-- One entry of the report's `items` list: either a merged reviewed item
or a structural-failure stand-in.  Non-structural items carry no
`structural_failure` key in Python, i.e. it reads as falsy (`false`). -/
structure MergedItem where
  index : Nat
  structural_failure : Bool := false
  validator : VDict
  adversarial : ADict
  overall_assessment : Assessment
deriving DecidableEq, Repr

/-- `_make_structural_failure(index, question_text, reason)`
(app.py lines 3646-3684). -/
def _make_structural_failure (index : Nat) (question_text : String)
    (reason : String) : MergedItem :=
  { index := index
    structural_failure := true
    validator :=
      { question_number := some index
        question_preview := some (question_text.take 80)
        overall_accuracy_score := some 2
        correct_answer_verified := some false
        needs_revision := some true
        factual_errors := some [reason]
        distractor_issues := some []
        vignette_issues := some [reason]
        explanation_issues := some []
        recommendations := some ["Fix the structural issue before content review"]
        summary := some ("Structural failure: " ++ reason ++ ". Content review skipped.") }
    adversarial :=
      { question_number := some index
        adversarial_score := some 0
        breakability_rating := some "N/A — structural failure, adversarial review skipped"
        alternative_answers := some []
        ambiguities := some []
        distractor_defenses := some []
        explanation_contradictions := some []
        triviality_clues := some []
        recommendations := some []
        summary := some "Adversarial review skipped — structural failure detected by Validator." }
    overall_assessment :=
      { status := "❌ Structural Failure"
        quality_score := 1
        validator_score := 2
        adversarial_score := 0
        needs_revision := true
        recommendation := "Cannot review content: " ++ reason } }

/-! ### Claims C2-C5: the assessment merger -/

theorem quality_score_eq (vd : VDict) (ad : ADict) (ct : String) :
    (generate_overall_assessment vd ad ct).quality_score =
      ((vd.overall_accuracy_score.getD 0 : ℚ) +
        (10 - (ad.adversarial_score.getD 0 : ℚ))) / 2 := by
  have key : ((vd.overall_accuracy_score.getD 0 : ℚ) +
      (10 - (ad.adversarial_score.getD 0 : ℚ))) / 2 =
      ((vd.overall_accuracy_score.getD 0 + (10 - ad.adversarial_score.getD 0) : ℤ) : ℚ) / 2 := by
    push_cast; ring
  unfold generate_overall_assessment
  dsimp only
  split
  · simp only [key, round2_int_div_two]
  · split
    · simp only [key, round2_int_div_two]
    · simp only [key, round2_int_div_two]

theorem needs_revision_eq (vd : VDict) (ad : ADict) (ct : String) :
    (generate_overall_assessment vd ad ct).needs_revision =
      vd.needs_revision.getD false := by
  unfold generate_overall_assessment
  dsimp only
  split
  · rfl
  · split
    · rfl
    · rfl

/-- Claim C2: for validator score `v` and adversarial score `a`, both
integers in `[0, 10]`, the merged `quality_score` is exactly
`(v + (10 - a)) / 2` (the stored two-decimal rounding is exact on these
half-integer values). -/
theorem C2_quality_score_formula (v a : ℤ) (vd : VDict) (ad : ADict) (ct : String)
    (hv0 : 0 ≤ v) (hv1 : v ≤ 10) (ha0 : 0 ≤ a) (ha1 : a ≤ 10)
    (hvd : vd.overall_accuracy_score = some v)
    (had : ad.adversarial_score = some a) :
    (generate_overall_assessment vd ad ct).quality_score =
      ((v : ℚ) + (10 - (a : ℚ))) / 2 := by
  rw [quality_score_eq, hvd, had]
  rfl

theorem C2_quality_score_formula_witness :
    (0 : ℤ) ≤ 9 ∧ (9 : ℤ) ≤ 10 ∧ (0 : ℤ) ≤ 1 ∧ (1 : ℤ) ≤ 10 ∧
    (generate_overall_assessment { overall_accuracy_score := some 9 }
        { adversarial_score := some 1 } "qbank").quality_score = 9 := by
  refine ⟨by decide, by decide, by decide, by decide, ?_⟩
  have h := C2_quality_score_formula 9 1 { overall_accuracy_score := some 9 }
    { adversarial_score := some 1 } "qbank" (by decide) (by decide) (by decide)
    (by decide) rfl rfl
  rw [h]
  norm_num

/-- The quality score before rounding, as computed inside
`generate_overall_assessment`. -/
def qualityOf (vd : VDict) (ad : ADict) : ℚ :=
  ((vd.overall_accuracy_score.getD 0 : ℚ) + (10 - (ad.adversarial_score.getD 0 : ℚ))) / 2

theorem round2_five : round2 5 = 5 := by
  have h := round2_int_div_two 10
  norm_num at h
  exact h

/-- Status bucketing of `generate_overall_assessment`, as implemented:
`if q >= 8 and not nr / elif q >= 6 / else`. -/
theorem status_iff (vd : VDict) (ad : ADict) (ct : String) :
    ((generate_overall_assessment vd ad ct).status = "✅ Approved" ↔
      (8 ≤ qualityOf vd ad ∧ vd.needs_revision.getD false = false)) ∧
    ((generate_overall_assessment vd ad ct).status = "⚠️ Conditional" ↔
      (6 ≤ qualityOf vd ad ∧ ¬(8 ≤ qualityOf vd ad ∧ vd.needs_revision.getD false = false))) ∧
    ((generate_overall_assessment vd ad ct).status = "❌ Needs Revision" ↔
      qualityOf vd ad < 6) := by
  unfold generate_overall_assessment qualityOf
  dsimp only
  split
  · rename_i h
    refine ⟨iff_of_true rfl h, iff_of_false ?_ ?_, iff_of_false ?_ ?_⟩
    · dsimp only
      decide
    · exact fun hc => hc.2 h
    · dsimp only
      decide
    · intro hq
      linarith [h.1]
  · rename_i h1
    split
    · rename_i h2
      refine ⟨iff_of_false ?_ h1, iff_of_true rfl ⟨h2, h1⟩, iff_of_false ?_ ?_⟩
      · dsimp only
        decide
      · dsimp only
        decide
      · intro hq
        linarith
    · rename_i h2
      refine ⟨iff_of_false ?_ h1, iff_of_false ?_ ?_, iff_of_true rfl (lt_of_not_le h2)⟩
      · dsimp only
        decide
      · dsimp only
        decide
      · exact fun hc => h2 hc.1

/-- Claim C3 (counterexample): a validator verdict with score 10 and
`needs_revision = true`, against adversarial score 0, yields
`quality_score = 10 ≥ 8` with `needs_revision` true — and the code maps it
to "⚠️ Conditional", not "Needs Revision" as the claim states. -/
theorem C3_counterexample_high_score_needs_revision :
    (generate_overall_assessment
        { overall_accuracy_score := some 10, needs_revision := some true }
        { adversarial_score := some 0 } "qbank").quality_score = 10 ∧
    (generate_overall_assessment
        { overall_accuracy_score := some 10, needs_revision := some true }
        { adversarial_score := some 0 } "qbank").needs_revision = true ∧
    (generate_overall_assessment
        { overall_accuracy_score := some 10, needs_revision := some true }
        { adversarial_score := some 0 } "qbank").status = "⚠️ Conditional" ∧
    (generate_overall_assessment
        { overall_accuracy_score := some 10, needs_revision := some true }
        { adversarial_score := some 0 } "qbank").status ≠ "❌ Needs Revision" := by
  have hs : (generate_overall_assessment
      { overall_accuracy_score := some 10, needs_revision := some true }
      { adversarial_score := some 0 } "qbank").status = "⚠️ Conditional" := by
    refine (status_iff _ _ _).2.1.mpr ⟨by norm_num [qualityOf], ?_⟩
    intro hc
    exact absurd hc.2 (by decide)
  refine ⟨?_, ?_, hs, ?_⟩
  · rw [quality_score_eq]
    norm_num
  · rw [needs_revision_eq]
    rfl
  · rw [hs]
    decide

/-- Claim C3 (amended): the status is "✅ Approved" exactly when
`quality_score ≥ 8` and not `needs_revision`; "⚠️ Conditional" exactly when
`quality_score ≥ 6` and not approved (in particular `quality_score ≥ 8`
with `needs_revision` true is Conditional, contrary to the claim);
"❌ Needs Revision" exactly when `quality_score < 6`.  The stored status
strings carry emoji prefixes. -/
theorem C3_amended_status_buckets (vd : VDict) (ad : ADict) (ct : String) :
    ((generate_overall_assessment vd ad ct).status = "✅ Approved" ↔
      (8 ≤ qualityOf vd ad ∧ vd.needs_revision.getD false = false)) ∧
    ((generate_overall_assessment vd ad ct).status = "⚠️ Conditional" ↔
      (6 ≤ qualityOf vd ad ∧ ¬(8 ≤ qualityOf vd ad ∧ vd.needs_revision.getD false = false))) ∧
    ((generate_overall_assessment vd ad ct).status = "❌ Needs Revision" ↔
      qualityOf vd ad < 6) :=
  status_iff vd ad ct

/-- Claim C4 (counterexample): the merged item built from two empty verdict
dicts has `quality_score = 5 < 6` yet `needs_revision = false`, violating
the claimed invariant "quality_score < 6 implies needs_revision". -/
theorem C4_counterexample_empty_verdicts :
    (generate_overall_assessment VDict.empty ADict.empty "qbank").quality_score < 6 ∧
    (generate_overall_assessment VDict.empty ADict.empty "qbank").needs_revision = false := by
  constructor
  · rw [quality_score_eq]
    norm_num [VDict.empty, ADict.empty]
  · rw [needs_revision_eq]
    rfl

/-- Claim C4 (amended): `needs_revision` of a merged item is exactly the
validator verdict's `needs_revision` flag (false when absent), independent
of the quality score; the invariant does hold for structural-failure
stand-ins, whose assessment has `quality_score = 1 < 6` and
`needs_revision = true`. -/
theorem C4_amended_needs_revision_source (vd : VDict) (ad : ADict) (ct : String)
    (idx : Nat) (txt : String) (reason : String) :
    (generate_overall_assessment vd ad ct).needs_revision = vd.needs_revision.getD false ∧
    (_make_structural_failure idx txt reason).overall_assessment.needs_revision = true ∧
    (_make_structural_failure idx txt reason).overall_assessment.quality_score = 1 ∧
    (_make_structural_failure idx txt reason).overall_assessment.quality_score < 6 :=
  ⟨needs_revision_eq vd ad ct, rfl, rfl, by norm_num [_make_structural_failure]⟩

/-- Claim C5 (counterexample): for an item whose validator and adversarial
dicts are both empty, the merger computes `quality_score = (0 + (10-0))/2
= 5`, not 0 as the claim states. -/
theorem C5_counterexample_quality_not_zero :
    (generate_overall_assessment VDict.empty ADict.empty "qbank").quality_score = 5 ∧
    (5 : ℚ) ≠ 0 := by
  constructor
  · rw [quality_score_eq]
    norm_num [VDict.empty, ADict.empty]
  · norm_num

/-- Claim C5 (amended): empty verdict dicts default both scores to 0 and
`needs_revision` to false, so the merged assessment is exactly
`quality_score = 5`, `needs_revision = false`, status "❌ Needs Revision". -/
theorem C5_amended_empty_verdict_assessment (ct : String) :
    generate_overall_assessment VDict.empty ADict.empty ct =
      { status := "❌ Needs Revision", quality_score := 5, validator_score := 0,
        adversarial_score := 0, needs_revision := false,
        recommendation := "Content has significant issues and requires revision before use." } := by
  unfold generate_overall_assessment
  dsimp only [VDict.empty, ADict.empty, Option.getD]
  rw [if_neg, if_neg]
  · norm_num [round2_five]
  · norm_num
  · norm_num

/-! ### `_sniff_media_type` (app.py 3592-3602) and the vision scorer's
media-type selection (`validate_image_with_claude`, app.py 898-930)

Bytes are `Nat` values < 256; an HTTP response is its status code, body
bytes and optional `content-type` header. -/

/-- `_sniff_media_type(raw_bytes)`: detect the image format from magic
bytes (used by `_load_image_as_base64` for the review payload). -/
def _sniff_media_type (raw_bytes : List Nat) : String :=
  if raw_bytes.take 8 = [0x89, 0x50, 0x4E, 0x47, 0x0D, 0x0A, 0x1A, 0x0A] then "image/png"
  else if raw_bytes.take 3 = [0xFF, 0xD8, 0xFF] then "image/jpeg"
  else if raw_bytes.take 6 = [0x47, 0x49, 0x46, 0x38, 0x37, 0x61] ∨
          raw_bytes.take 6 = [0x47, 0x49, 0x46, 0x38, 0x39, 0x61] then "image/gif"
  else if raw_bytes.take 4 = [0x52, 0x49, 0x46, 0x46] ∧
          (raw_bytes.drop 8).take 4 = [0x57, 0x45, 0x42, 0x50] then "image/webp"
  else "image/jpeg"

/-- The HTTP response obtained by `requests.get(image_url)` inside
`validate_image_with_claude`. -/
structure HttpResponse where
  status_code : Nat
  content : List Nat
  contentTypeHeader : Option String
deriving DecidableEq, Repr

/-- The image attachment submitted to the vision model: media type plus
the (base64 of the) downloaded bytes. -/
structure VisionSubmission where
  media_type : String
  data : List Nat
deriving DecidableEq, Repr

/-- Outcome of the download phase of `validate_image_with_claude`:
a non-200 response short-circuits to `{'score': 0, 'reason': 'Failed to
download image'}` without calling the vision model; otherwise the image is
submitted with `media_type = img_response.headers.get('content-type',
'image/jpeg')` (app.py line 907). -/
inductive VisionOutcome where
  | noCall (score : Int) (reason : String)
  | call (submission : VisionSubmission)
deriving DecidableEq, Repr

/-- The download-and-submit phase of `validate_image_with_claude`. -/
def validate_image_with_claude (img_response : HttpResponse) : VisionOutcome :=
  if img_response.status_code ≠ 200 then
    .noCall 0 "Failed to download image"
  else
    .call { media_type := img_response.contentTypeHeader.getD "image/jpeg"
            data := img_response.content }

/-- The media type `validate_image_with_claude` submits, when it submits. -/
def submittedMediaType (img_response : HttpResponse) : Option String :=
  match validate_image_with_claude img_response with
  | .noCall _ _ => none
  | .call sub => some sub.media_type

/-- Claim C10 (counterexample): a 200 response whose body starts with the
PNG magic bytes but whose `content-type` header says `image/gif` is
submitted as `image/gif`, while `_sniff_media_type` on the same bytes
returns `image/png` — the scorer uses the header, not the magic bytes. -/
theorem C10_counterexample_header_not_magic :
    submittedMediaType
        { status_code := 200,
          content := [0x89, 0x50, 0x4E, 0x47, 0x0D, 0x0A, 0x1A, 0x0A, 0x00],
          contentTypeHeader := some "image/gif" } = some "image/gif" ∧
    _sniff_media_type [0x89, 0x50, 0x4E, 0x47, 0x0D, 0x0A, 0x1A, 0x0A, 0x00] = "image/png" ∧
    some "image/gif" ≠ some "image/png" := by
  refine ⟨rfl, rfl, by decide⟩

/-- Claim C10 (amended): for every successful (status 200) download, the
media type submitted to the vision model is exactly the HTTP
`content-type` header (defaulting to `image/jpeg` when absent); it depends
only on the header, never on the body bytes — so not on magic bytes.
(`_sniff_media_type` is used by `_load_image_as_base64` for the review
payload, not by the vision scorer.) -/
theorem C10_amended_media_type_from_header (r r' : HttpResponse)
    (h : r.status_code = 200) (h' : r'.status_code = 200)
    (hh : r.contentTypeHeader = r'.contentTypeHeader) :
    submittedMediaType r = some (r.contentTypeHeader.getD "image/jpeg") ∧
    submittedMediaType r = submittedMediaType r' := by
  unfold submittedMediaType validate_image_with_claude
  rw [h, h', hh]
  simp

theorem C10_amended_media_type_from_header_witness :
    ({ status_code := 200, content := [0x89, 0x50],
       contentTypeHeader := some "image/gif" } : HttpResponse).status_code = 200 ∧
    ({ status_code := 200, content := [0xFF, 0xD8],
       contentTypeHeader := some "image/gif" } : HttpResponse).status_code = 200 ∧
    submittedMediaType
        { status_code := 200, content := [0x89, 0x50],
          contentTypeHeader := some "image/gif" } = some "image/gif" ∧
    submittedMediaType
        { status_code := 200, content := [0x89, 0x50],
          contentTypeHeader := some "image/gif" } =
      submittedMediaType
        { status_code := 200, content := [0xFF, 0xD8],
          contentTypeHeader := some "image/gif" } := by
  have h := C10_amended_media_type_from_header
    { status_code := 200, content := [0x89, 0x50], contentTypeHeader := some "image/gif" }
    { status_code := 200, content := [0xFF, 0xD8], contentTypeHeader := some "image/gif" }
    rfl rfl rfl
  exact ⟨rfl, rfl, h.1, h.2⟩

/-! ### MD5 and `get_cache_key` (app.py 93-96)

`get_cache_key(search_terms, image_type)` returns
`md5(f"{image_type}:{','.join(sorted(search_terms[:3]))}")` in hex.
Below is a full MD5 over UTF-8 bytes (RFC 1321): constants, shifts,
64-round compression, little-endian hex digest. -/

def md5K : List Nat :=
  [0xd76aa478, 0xe8c7b756, 0x242070db, 0xc1bdceee,
   0xf57c0faf, 0x4787c62a, 0xa8304613, 0xfd469501,
   0x698098d8, 0x8b44f7af, 0xffff5bb1, 0x895cd7be,
   0x6b901122, 0xfd987193, 0xa679438e, 0x49b40821,
   0xf61e2562, 0xc040b340, 0x265e5a51, 0xe9b6c7aa,
   0xd62f105d, 0x02441453, 0xd8a1e681, 0xe7d3fbc8,
   0x21e1cde6, 0xc33707d6, 0xf4d50d87, 0x455a14ed,
   0xa9e3e905, 0xfcefa3f8, 0x676f02d9, 0x8d2a4c8a,
   0xfffa3942, 0x8771f681, 0x6d9d6122, 0xfde5380c,
   0xa4beea44, 0x4bdecfa9, 0xf6bb4b60, 0xbebfbc70,
   0x289b7ec6, 0xeaa127fa, 0xd4ef3085, 0x04881d05,
   0xd9d4d039, 0xe6db99e5, 0x1fa27cf8, 0xc4ac5665,
   0xf4292244, 0x432aff97, 0xab9423a7, 0xfc93a039,
   0x655b59c3, 0x8f0ccc92, 0xffeff47d, 0x85845dd1,
   0x6fa87e4f, 0xfe2ce6e0, 0xa3014314, 0x4e0811a1,
   0xf7537e82, 0xbd3af235, 0x2ad7d2bb, 0xeb86d391]

def md5shift : List Nat :=
  [7, 12, 17, 22, 7, 12, 17, 22, 7, 12, 17, 22, 7, 12, 17, 22,
   5, 9, 14, 20, 5, 9, 14, 20, 5, 9, 14, 20, 5, 9, 14, 20,
   4, 11, 16, 23, 4, 11, 16, 23, 4, 11, 16, 23, 4, 11, 16, 23,
   6, 10, 15, 21, 6, 10, 15, 21, 6, 10, 15, 21, 6, 10, 15, 21]

def w32mask : Nat := 0xFFFFFFFF

def w32 (x : Nat) : Nat := x % 0x100000000

def rotl32 (x n : Nat) : Nat := (w32 (x <<< n)) ||| (x >>> (32 - n))

def md5F (i b c d : Nat) : Nat :=
  if i < 16 then (b &&& c) ||| ((b ^^^ w32mask) &&& d)
  else if i < 32 then (d &&& b) ||| ((d ^^^ w32mask) &&& c)
  else if i < 48 then b ^^^ c ^^^ d
  else c ^^^ (b ||| (d ^^^ w32mask))

def md5g (i : Nat) : Nat :=
  if i < 16 then i
  else if i < 32 then (5 * i + 1) % 16
  else if i < 48 then (3 * i + 5) % 16
  else (7 * i) % 16

def md5step (M : List Nat) (st : Nat × Nat × Nat × Nat) (i : Nat) :
    Nat × Nat × Nat × Nat :=
  let a := st.1
  let b := st.2.1
  let c := st.2.2.1
  let d := st.2.2.2
  let f := w32 (a + md5F i b c d + md5K.getD i 0 + M.getD (md5g i) 0)
  (d, w32 (b + rotl32 f (md5shift.getD i 0)), b, c)

def md5block (st : Nat × Nat × Nat × Nat) (M : List Nat) :
    Nat × Nat × Nat × Nat :=
  let r := (List.range 64).foldl (md5step M) st
  (w32 (st.1 + r.1), w32 (st.2.1 + r.2.1), w32 (st.2.2.1 + r.2.2.1), w32 (st.2.2.2 + r.2.2.2))

def md5pad (msg : List Nat) : List Nat :=
  let L := msg.length
  let z := (119 - L % 64) % 64
  let bitLen := w32 (0) + (8 * L) % 0x10000000000000000
  msg ++ [0x80] ++ List.replicate z 0 ++
    (List.range 8).map (fun k => (bitLen >>> (8 * k)) % 256)

def leWords (blk : List Nat) : List Nat :=
  (List.range 16).map (fun j =>
    blk.getD (4 * j) 0 + 256 * blk.getD (4 * j + 1) 0 +
    65536 * blk.getD (4 * j + 2) 0 + 16777216 * blk.getD (4 * j + 3) 0)

def utf8Bytes (c : Char) : List Nat :=
  let n := c.toNat
  if n < 0x80 then [n]
  else if n < 0x800 then [0xC0 ||| (n >>> 6), 0x80 ||| (n &&& 0x3F)]
  else if n < 0x10000 then
    [0xE0 ||| (n >>> 12), 0x80 ||| ((n >>> 6) &&& 0x3F), 0x80 ||| (n &&& 0x3F)]
  else
    [0xF0 ||| (n >>> 18), 0x80 ||| ((n >>> 12) &&& 0x3F),
     0x80 ||| ((n >>> 6) &&& 0x3F), 0x80 ||| (n &&& 0x3F)]

def strBytes (s : String) : List Nat := s.data.flatMap utf8Bytes

def hexDigit (n : Nat) : Char := "0123456789abcdef".data.getD n '0'

def byteHex (b : Nat) : String := String.mk [hexDigit (b / 16), hexDigit (b % 16)]

def wordLEHex (x : Nat) : String :=
  byteHex (x % 256) ++ byteHex ((x >>> 8) % 256) ++
  byteHex ((x >>> 16) % 256) ++ byteHex ((x >>> 24) % 256)

def md5hex (s : String) : String :=
  let padded := md5pad (strBytes s)
  let numBlocks := padded.length / 64
  let blocks := (List.range numBlocks).map (fun k => ((padded.drop (64 * k)).take 64))
  let st := blocks.foldl (fun st blk => md5block st (leWords blk))
    (0x67452301, 0xefcdab89, 0x98badcfe, 0x10325476)
  wordLEHex st.1 ++ wordLEHex st.2.1 ++ wordLEHex st.2.2.1 ++ wordLEHex st.2.2.2


theorem md5hex_abc : md5hex "abc" = "900150983cd24fb0d6963f7d28e17f72" := by
  set_option maxRecDepth 20000 in decide

theorem md5hex_empty : md5hex "" = "d41d8cd98f00b204e9800998ecf8427e" := by
  set_option maxRecDepth 20000 in decide

/-- Lexicographic comparison of char lists by code point, matching
Python's string `<=`. -/
def charListLe : List Char → List Char → Bool
  | [], _ => true
  | _ :: _, [] => false
  | a :: as, b :: bs =>
    if a.toNat < b.toNat then true
    else if b.toNat < a.toNat then false
    else charListLe as bs

/-- Python string comparison `a <= b` (lexicographic by code point). -/
def pyStrLe (a b : String) : Bool := charListLe a.data b.data

theorem char_eq_of_toNat_eq {a b : Char} (h : a.toNat = b.toNat) : a = b := by
  have h2 := congrArg Char.ofNat h
  rwa [Char.ofNat_toNat, Char.ofNat_toNat] at h2

theorem charListLe_total : ∀ as bs : List Char,
    charListLe as bs = true ∨ charListLe bs as = true := by
  intro as
  induction as with
  | nil => intro bs; left; rfl
  | cons a as ih =>
    intro bs
    cases bs with
    | nil => right; rfl
    | cons b bs =>
      rcases Nat.lt_trichotomy a.toNat b.toNat with h | h | h
      · left; simp [charListLe, h]
      · have hne1 : ¬ a.toNat < b.toNat := by omega
        have hne2 : ¬ b.toNat < a.toNat := by omega
        rcases ih bs with h1 | h1
        · left; simp [charListLe, hne1, hne2, h1]
        · right; simp [charListLe, hne1, hne2, h1]
      · right; simp [charListLe, h]

theorem charListLe_trans : ∀ as bs cs : List Char,
    charListLe as bs = true → charListLe bs cs = true → charListLe as cs = true := by
  intro as
  induction as with
  | nil => intro bs cs h1 h2; rfl
  | cons a as ih =>
    intro bs cs h1 h2
    cases bs with
    | nil => simp [charListLe] at h1
    | cons b bs =>
      cases cs with
      | nil => simp [charListLe] at h2
      | cons c cs =>
        by_cases hab : a.toNat < b.toNat
        · by_cases hbc : b.toNat < c.toNat
          · simp [charListLe, show a.toNat < c.toNat by omega]
          · by_cases hcb : c.toNat < b.toNat
            · simp [charListLe, hbc, hcb] at h2
            · simp [charListLe, show a.toNat < c.toNat by omega]
        · by_cases hba : b.toNat < a.toNat
          · simp [charListLe, hab, hba] at h1
          · simp [charListLe, hab, hba] at h1
            by_cases hbc : b.toNat < c.toNat
            · simp [charListLe, show a.toNat < c.toNat by omega]
            · by_cases hcb : c.toNat < b.toNat
              · simp [charListLe, hbc, hcb] at h2
              · simp [charListLe, hbc, hcb] at h2
                simp [charListLe, show ¬ a.toNat < c.toNat by omega,
                  show ¬ c.toNat < a.toNat by omega]
                exact ih bs cs h1 h2

theorem charListLe_antisymm : ∀ as bs : List Char,
    charListLe as bs = true → charListLe bs as = true → as = bs := by
  intro as
  induction as with
  | nil =>
    intro bs h1 h2
    cases bs with
    | nil => rfl
    | cons b bs => simp [charListLe] at h2
  | cons a as ih =>
    intro bs h1 h2
    cases bs with
    | nil => simp [charListLe] at h1
    | cons b bs =>
      rcases Nat.lt_trichotomy a.toNat b.toNat with hab | hab | hab
      · simp [charListLe, hab, Nat.lt_asymm hab] at h2
      · have hne1 : ¬ a.toNat < b.toNat := by omega
        have hne2 : ¬ b.toNat < a.toNat := by omega
        simp [charListLe, hne1, hne2] at h1 h2
        rw [char_eq_of_toNat_eq hab, ih bs h1 h2]
      · simp [charListLe, hab, Nat.lt_asymm hab] at h1

instance : IsTotal String (fun a b => pyStrLe a b = true) :=
  ⟨fun a b => charListLe_total a.data b.data⟩

instance : IsTrans String (fun a b => pyStrLe a b = true) :=
  ⟨fun a b c => charListLe_trans a.data b.data c.data⟩

instance : IsAntisymm String (fun a b => pyStrLe a b = true) := by
  refine ⟨fun a b h1 h2 => ?_⟩
  obtain ⟨da⟩ := a
  obtain ⟨db⟩ := b
  exact congrArg String.mk (charListLe_antisymm da db h1 h2)

/-- Python `sorted` on strings: the unique permutation sorted by code-point
order (duplicate strings are identical values, so stability is irrelevant
to the resulting list value). -/
def pySorted (l : List String) : List String :=
  l.insertionSort (fun a b => pyStrLe a b = true)

theorem pySorted_perm_eq {l1 l2 : List String} (h : l1.Perm l2) :
    pySorted l1 = pySorted l2 := by
  have s1 : List.Sorted (fun a b => pyStrLe a b = true) (pySorted l1) :=
    List.sorted_insertionSort _ l1
  have s2 : List.Sorted (fun a b => pyStrLe a b = true) (pySorted l2) :=
    List.sorted_insertionSort _ l2
  have p : (pySorted l1).Perm (pySorted l2) :=
    ((List.perm_insertionSort _ l1).trans h).trans (List.perm_insertionSort _ l2).symm
  exact List.eq_of_perm_of_sorted p s1 s2

/-- `get_cache_key(search_terms, image_type)` (app.py 93-96): the first
three search terms are taken, then sorted, joined with commas, prefixed
with the modality, and hashed. -/
def get_cache_key (search_terms : List String) (image_type : String) : String :=
  md5hex (image_type ++ ":" ++ String.intercalate "," (pySorted (search_terms.take 3)))

/-- Claim C8 (counterexample): the slice `[:3]` is taken before sorting,
so two permuted four-term lists can hash different term sets: with
modality "x", `["a","b","c","d"]` keys over `{a,b,c}` while its
permutation `["d","a","b","c"]` keys over `{a,b,d}`, giving different
cache keys. -/
theorem C8_counterexample_longer_lists :
    (["a", "b", "c", "d"] : List String).Perm ["d", "a", "b", "c"] ∧
    get_cache_key ["a", "b", "c", "d"] "x" ≠ get_cache_key ["d", "a", "b", "c"] "x" := by
  constructor
  · decide
  · set_option maxRecDepth 40000 in decide

/-- Claim C8 (amended): the cache key is insensitive to the order of the
first three terms only: whenever the `[:3]` prefixes of two term lists are
permutations of each other (in particular for arbitrary permutations of
lists with at most three terms), the keys agree. -/
theorem C8_amended_cache_key_first3_perm (t1 t2 : List String) (m : String)
    (h : (t1.take 3).Perm (t2.take 3)) :
    get_cache_key t1 m = get_cache_key t2 m := by
  unfold get_cache_key
  rw [pySorted_perm_eq h]

theorem C8_amended_cache_key_first3_perm_witness :
    ((["b", "a"] : List String).take 3).Perm (["a", "b"].take 3) ∧
    get_cache_key ["b", "a"] "xray" = get_cache_key ["a", "b"] "xray" :=
  ⟨by decide, C8_amended_cache_key_first3_perm ["b", "a"] ["a", "b"] "xray" (by decide)⟩

/-! ### `validate_content` (app.py 3734-4018)

Items are Python dicts read with `.get(key, default)`; the regex test
`_IMAGE_REF_RE.search(...)` and the filesystem/URL check
`_image_available(...)` are oracles `imageRef`, `avail`;
`_load_image_as_base64` is the oracle `loadImage`.  Each LLM batch call's
extracted result array is oracle data (`respV`/`respA`, indexed by batch
start and batch count, entries `none` for non-dict array elements, which
the slot loop replaces by `{}`).  The `as_completed` iteration order over
the `2 × num_batches` futures is an explicit completion list. -/

/-- A qbank item dict (fields used by `validate_content`). -/
structure Item where
  question : Option String := none
  image_url : Option String := none
  options : Option (List String) := none
  correct_option : Option String := none
  explanation : Option String := none
  tags : Option (List String) := none
deriving DecidableEq, Repr, Inhabited

/-- The qbank pre-screen loop body (app.py 3763-3779) for item `q` at
0-based index `i`: `needs_image = bool(image_url) or
bool(_IMAGE_REF_RE.search(question_text))`; a needed-but-unavailable or
needed-but-absent image short-circuits to `_make_structural_failure`. -/
def preScreenItem (imageRef avail : String → Bool) (i : Nat) (q : Item) :
    Option MergedItem :=
  let question_text := q.question.getD ""
  let image_url := q.image_url.getD ""
  let has_url : Bool := image_url != ""
  let needs_image : Bool := has_url || imageRef question_text
  if needs_image && has_url && !(avail image_url) then
    some (_make_structural_failure (i + 1) question_text
      "Image file referenced in question is missing or unavailable")
  else if needs_image && !has_url then
    some (_make_structural_failure (i + 1) question_text
      "Question references an image but no image is attached")
  else
    none

/-- The `pre_scored` map of `validate_content`: structural-failure
stand-ins by original index.  Pre-screening runs only for
`content_type == 'qbank'`. -/
def pre_scored (imageRef avail : String → Bool) (content_type : String)
    (items : List Item) (i : Nat) : Option MergedItem :=
  if content_type = "qbank" then
    match items[i]? with
    | some q => preScreenItem imageRef avail i q
    | none => none
  else none

/-- `valid_indices`: the indices actually sent to the models, in order. -/
def valid_indices (imageRef avail : String → Bool) (content_type : String)
    (items : List Item) : List Nat :=
  (List.range items.length).filter
    (fun i => (pre_scored imageRef avail content_type items i).isNone)

/-- `valid_items = [items[i] for i in valid_indices]`. -/
def valid_items (imageRef avail : String → Bool) (content_type : String)
    (items : List Item) : List Item :=
  (valid_indices imageRef avail content_type items).filterMap (fun i => items[i]?)

/-- `BATCH_SIZE = 2 if content_type == 'lesson' else 10` (app.py 3888). -/
def batch_size (content_type : String) : Nat :=
  if content_type = "lesson" then 2 else 10

/-- One completed future: the role tag, the batch start offset and the
extracted (already `[:batch_count]`-truncated) result array; `none`
entries are array elements that were not dicts. -/
inductive BatchResult where
  | vres (bStart : Nat) (results : List (Option VDict))
  | ares (bStart : Nat) (results : List (Option ADict))
deriving DecidableEq, Repr

/-- Write `rs` into consecutive slots starting at `pos`
(`slots[b_start + j] = r`); out-of-range writes are no-ops, as in the
guarded Python loop (app.py 3956-3958). -/
def setSlotRange {α : Type} : List (Option α) → Nat → List α → List (Option α)
  | slots, _, [] => slots
  | slots, pos, r :: rest => setSlotRange (slots.set pos (some r)) (pos + 1) rest

/-- Process one completed future against the two slot arrays
(`slots[b_start + j] = r if isinstance(r, dict) else {}`). -/
def applyCompletion (st : List (Option VDict) × List (Option ADict)) :
    BatchResult → List (Option VDict) × List (Option ADict)
  | .vres b rs => (setSlotRange st.1 b (rs.map (fun r => r.getD VDict.empty)), st.2)
  | .ares b rs => (st.1, setSlotRange st.2 b (rs.map (fun r => r.getD ADict.empty)))

/-- The futures created by the batch loop (app.py 3911-3950), in
submission order: one validator and one adversarial completion per batch
`[k*bs, min(k*bs+bs, nValid))`, each carrying the extracted results
truncated to the batch count. -/
def canonicalCompletions (respV : Nat → Nat → List (Option VDict))
    (respA : Nat → Nat → List (Option ADict)) (nValid bs : Nat) : List BatchResult :=
  (List.range ((nValid + bs - 1) / bs)).flatMap (fun k =>
    let b := k * bs
    let cnt := min (b + bs) nValid - b
    [.vres b ((respV b cnt).take cnt), .ares b ((respA b cnt).take cnt)])

/-- One entry of the merge loop (app.py 3969-3985): the pre-scored
stand-in at its original index, or the merged item pairing the item with
validator/adversarial results at the running `valid_pos`. -/
def mergedEntry (pre : Nat → Option MergedItem) (vres : List VDict)
    (ares : List ADict) (content_type : String) (i vp : Nat) : MergedItem :=
  match pre i with
  | some m => m
  | none =>
    { index := i + 1
      validator := vres.getD vp VDict.empty
      adversarial := ares.getD vp ADict.empty
      overall_assessment := generate_overall_assessment
        (vres.getD vp VDict.empty) (ares.getD vp ADict.empty) content_type }

/-- The merge loop over original indices `i, i+1, ..., i+k-1` with running
`valid_pos = vp`. -/
def mergeLoop (pre : Nat → Option MergedItem) (vres : List VDict)
    (ares : List ADict) (content_type : String) : Nat → Nat → Nat → List MergedItem
  | _, _, 0 => []
  | i, vp, k + 1 =>
    mergedEntry pre vres ares content_type i vp ::
      mergeLoop pre vres ares content_type (i + 1)
        (vp + (if (pre i).isNone then 1 else 0)) k

/-- The `items` list of the `validate_content` report, parameterised by
the completion order of the `2 × num_batches` futures.  `none` models the
400 responses (empty item list / invalid content type). -/
def validate_content (imageRef avail : String → Bool) (content_type : String)
    (items : List Item) (order : List BatchResult) : Option (List MergedItem) :=
  if items = [] then none
  else if content_type ≠ "lesson" ∧ content_type ≠ "qbank" then none
  else
    let pre := pre_scored imageRef avail content_type items
    let n := (valid_indices imageRef avail content_type items).length
    let slots := order.foldl applyCompletion
      (List.replicate n none, List.replicate n none)
    let vres := slots.1.map (fun r => r.getD VDict.empty)
    let ares := slots.2.map (fun r => r.getD ADict.empty)
    some (mergeLoop pre vres ares content_type 0 0 items.length)

/-- Count of indices in `[i, i+j)` that are not pre-scored — the
`valid_pos` the merge loop has reached at original index `i+j`. -/
def countValid (pre : Nat → Option MergedItem) : Nat → Nat → Nat
  | _, 0 => 0
  | i, j + 1 => (if (pre i).isNone then 1 else 0) + countValid pre (i + 1) j

/-- The slot arrays after all canonical completions are processed. -/
def canonicalSlots (respV : Nat → Nat → List (Option VDict))
    (respA : Nat → Nat → List (Option ADict)) (nValid bs : Nat) :
    List (Option VDict) × List (Option ADict) :=
  (canonicalCompletions respV respA nValid bs).foldl applyCompletion
    (List.replicate nValid none, List.replicate nValid none)

/-- The item the report must hold at original index `i`: the
structural-failure stand-in, or the merge of that item's validator and
adversarial results (slot position = number of valid indices before `i`),
computed from the canonical (submission-order) completion list. -/
def expectedItem (imageRef avail : String → Bool) (content_type : String)
    (items : List Item) (respV : Nat → Nat → List (Option VDict))
    (respA : Nat → Nat → List (Option ADict)) (i : Nat) : MergedItem :=
  let pre := pre_scored imageRef avail content_type items
  let n := (valid_indices imageRef avail content_type items).length
  let slots := canonicalSlots respV respA n (batch_size content_type)
  mergedEntry pre (slots.1.map (fun r => r.getD VDict.empty))
    (slots.2.map (fun r => r.getD ADict.empty)) content_type i (countValid pre 0 i)

/-! ### Order-independence of the slot writes -/

/-- Role tag of a completion (validator / adversarial). -/
def batchRole : BatchResult → Bool
  | .vres _ _ => true
  | .ares _ _ => false

/-- Batch start offset of a completion. -/
def batchStart : BatchResult → Nat
  | .vres b _ => b
  | .ares b _ => b

/-- Number of result entries a completion writes. -/
def batchLen : BatchResult → Nat
  | .vres _ rs => rs.length
  | .ares _ rs => rs.length

/-- Two completions that either belong to different passes (separate slot
arrays) or write disjoint slot ranges. -/
def DisjointBR (c1 c2 : BatchResult) : Prop :=
  batchRole c1 ≠ batchRole c2 ∨
  batchStart c1 + batchLen c1 ≤ batchStart c2 ∨
  batchStart c2 + batchLen c2 ≤ batchStart c1

theorem DisjointBR_symm : Symmetric DisjointBR := by
  intro c1 c2 h
  rcases h with h | h | h
  · exact Or.inl (Ne.symm h)
  · exact Or.inr (Or.inr h)
  · exact Or.inr (Or.inl h)

theorem setSlotRange_set_comm {α : Type} (s : List (Option α)) (p : Nat)
    (v : Option α) (b : Nat) (rs : List α) (h : p < b ∨ b + rs.length ≤ p) :
    setSlotRange (s.set p v) b rs = (setSlotRange s b rs).set p v := by
  induction rs generalizing s b with
  | nil => rfl
  | cons r rest ih =>
    simp only [setSlotRange]
    rw [List.set_comm _ _ _ (show p ≠ b by simp [List.length_cons] at h; omega)]
    rw [ih (s.set b (some r)) (b + 1) (by simp [List.length_cons] at h; omega)]

theorem setSlotRange_comm {α : Type} (s : List (Option α)) (b1 : Nat)
    (rs1 : List α) (b2 : Nat) (rs2 : List α)
    (h : b1 + rs1.length ≤ b2 ∨ b2 + rs2.length ≤ b1) :
    setSlotRange (setSlotRange s b1 rs1) b2 rs2 =
      setSlotRange (setSlotRange s b2 rs2) b1 rs1 := by
  induction rs1 generalizing s b1 with
  | nil => rfl
  | cons r rest ih =>
    simp only [setSlotRange]
    rw [ih (s.set b1 (some r)) (b1 + 1) (by simp [List.length_cons] at h; omega)]
    rw [setSlotRange_set_comm s b1 (some r) b2 rs2
      (by simp [List.length_cons] at h; omega)]

theorem applyCompletion_comm (c1 c2 : BatchResult) (h : DisjointBR c1 c2)
    (st : List (Option VDict) × List (Option ADict)) :
    applyCompletion (applyCompletion st c1) c2 =
      applyCompletion (applyCompletion st c2) c1 := by
  cases c1 with
  | vres b1 rs1 =>
    cases c2 with
    | vres b2 rs2 =>
      simp only [DisjointBR, batchRole, batchStart, batchLen, ne_eq,
        not_true_eq_false, false_or] at h
      simp only [applyCompletion]
      rw [setSlotRange_comm st.1 b1 _ b2 _ (by simpa using h)]
    | ares b2 rs2 => simp [applyCompletion]
  | ares b1 rs1 =>
    cases c2 with
    | vres b2 rs2 => simp [applyCompletion]
    | ares b2 rs2 =>
      simp only [DisjointBR, batchRole, batchStart, batchLen, ne_eq,
        not_true_eq_false, false_or] at h
      simp only [applyCompletion]
      rw [setSlotRange_comm st.2 b1 _ b2 _ (by simpa using h)]

theorem canonical_pairwise (respV : Nat → Nat → List (Option VDict))
    (respA : Nat → Nat → List (Option ADict)) (nValid bs : Nat) :
    (canonicalCompletions respV respA nValid bs).Pairwise DisjointBR := by
  unfold canonicalCompletions
  rw [List.pairwise_flatMap]
  constructor
  · intro k _
    simp [List.pairwise_cons, DisjointBR, batchRole]
  · refine (List.pairwise_lt_range _).imp ?_
    intro k1 k2 hk x hx y hy
    simp only [List.mem_cons, List.not_mem_nil, or_false] at hx hy
    have hx' : batchStart x = k1 * bs ∧ batchLen x ≤ min (k1 * bs + bs) nValid - k1 * bs := by
      rcases hx with rfl | rfl <;>
        simp [batchStart, batchLen, List.length_take, Nat.min_le_left]
    have hy' : batchStart y = k2 * bs := by
      rcases hy with rfl | rfl <;> simp [batchStart]
    refine Or.inr (Or.inl ?_)
    have hlen : batchLen x ≤ bs := le_trans hx'.2 (by omega)
    have h2 : k1 * bs + bs ≤ k2 * bs := by
      rw [← Nat.succ_mul]
      exact Nat.mul_le_mul_right bs hk
    rw [hx'.1, hy']
    omega

/-- Processing any reordering of the submitted completions yields the same
slot arrays: each completion writes a disjoint region. -/
theorem foldl_applyCompletion_perm {order canonical : List BatchResult}
    (hdisj : canonical.Pairwise DisjointBR) (hperm : order.Perm canonical)
    (init : List (Option VDict) × List (Option ADict)) :
    order.foldl applyCompletion init = canonical.foldl applyCompletion init := by
  refine hperm.foldl_eq' ?_ init
  intro x hx y hy z
  by_cases hxy : x = y
  · subst hxy
    rfl
  · have hD : DisjointBR x y :=
      (List.Pairwise.forall DisjointBR_symm hdisj) (hperm.subset hx) (hperm.subset hy) hxy
    exact applyCompletion_comm x y hD z

theorem mergeLoop_length (pre : Nat → Option MergedItem) (vres : List VDict)
    (ares : List ADict) (ct : String) :
    ∀ k i vp, (mergeLoop pre vres ares ct i vp k).length = k := by
  intro k
  induction k with
  | zero => intro i vp; rfl
  | succ k ih =>
    intro i vp
    simp [mergeLoop, ih]

theorem mergeLoop_getElem? (pre : Nat → Option MergedItem) (vres : List VDict)
    (ares : List ADict) (ct : String) :
    ∀ k j i vp, j < k →
      (mergeLoop pre vres ares ct i vp k)[j]? =
        some (mergedEntry pre vres ares ct (i + j) (vp + countValid pre i j)) := by
  intro k
  induction k with
  | zero => intro j i vp h; omega
  | succ k ih =>
    intro j i vp h
    cases j with
    | zero => simp [mergeLoop, countValid]
    | succ j =>
      simp only [mergeLoop, List.getElem?_cons_succ]
      rw [ih j (i + 1) (vp + (if (pre i).isNone then 1 else 0)) (by omega)]
      have h1 : i + 1 + j = i + (j + 1) := by omega
      have h2 : vp + (if (pre i).isNone then 1 else 0) + countValid pre (i + 1) j =
          vp + countValid pre i (j + 1) := by
        simp only [countValid]
        omega
      rw [h1, h2]

/-- Claim C1: for a review request with a nonempty item list of length N
and content type "lesson" or "qbank", and for EVERY completion order of
the concurrent validator/adversarial batch futures (any permutation of the
submitted ones), the report's `items` list has length N and its entry at
each index `i` is the result for input item `i`: the structural-failure
stand-in at its original index, or the merge of that item's validator and
adversarial verdicts (slot = rank of `i` among valid indices), identical
to the submission-order outcome.  The batch size (2 for lessons, 10 for
qbank) only shapes the canonical completion list. -/
theorem C1_ordering_invariant (imageRef avail : String → Bool) (ct : String)
    (items : List Item) (respV : Nat → Nat → List (Option VDict))
    (respA : Nat → Nat → List (Option ADict)) (order : List BatchResult)
    (hct : ct = "lesson" ∨ ct = "qbank") (hne : items ≠ [])
    (hperm : order.Perm (canonicalCompletions respV respA
      (valid_indices imageRef avail ct items).length (batch_size ct))) :
    ∃ out, validate_content imageRef avail ct items order = some out ∧
      out.length = items.length ∧
      ∀ i, i < items.length →
        out[i]? = some (expectedItem imageRef avail ct items respV respA i) := by
  have hct' : ¬(ct ≠ "lesson" ∧ ct ≠ "qbank") := by
    rcases hct with h | h <;> simp [h]
  unfold validate_content
  rw [if_neg hne, if_neg hct']
  refine ⟨_, rfl, ?_, ?_⟩
  · exact mergeLoop_length _ _ _ _ _ _ _
  · intro i hi
    have hfold := foldl_applyCompletion_perm
      (canonical_pairwise respV respA
        (valid_indices imageRef avail ct items).length (batch_size ct)) hperm
      (List.replicate (valid_indices imageRef avail ct items).length none,
       List.replicate (valid_indices imageRef avail ct items).length none)
    rw [hfold]
    rw [mergeLoop_getElem? _ _ _ _ _ i 0 0 hi]
    unfold expectedItem canonicalSlots
    simp

theorem C1_ordering_invariant_witness :
    ∃ out, validate_content (fun _ => false) (fun _ => true) "qbank"
        [{ question := some "q1" }, {}]
        [BatchResult.ares 0 [],
         BatchResult.vres 0 [some { overall_accuracy_score := some 8 }]] = some out ∧
      out.length = 2 ∧
      ∀ i, i < 2 →
        out[i]? = some (expectedItem (fun _ => false) (fun _ => true) "qbank"
          [{ question := some "q1" }, {}]
          (fun _ _ => [some { overall_accuracy_score := some 8 }]) (fun _ _ => []) i) := by
  have h := C1_ordering_invariant (fun _ => false) (fun _ => true) "qbank"
    [{ question := some "q1" }, {}]
    (fun _ _ => [some { overall_accuracy_score := some 8 }]) (fun _ _ => [])
    [BatchResult.ares 0 [],
     BatchResult.vres 0 [some { overall_accuracy_score := some 8 }]]
    (Or.inr rfl) (by decide) (by decide)
  simpa using h

/-! ### Claim C6: structural bypass and the LLM payload (app.py 3842-3879)

The multimodal payload the qbank branch builds — from the surviving
(valid) items only: a text block per question plus an embedded image (or a
load-failure marker) when the image is present and available. -/

/-- One content block of the multimodal payload. -/
inductive Block where
  | text (s : String)
  | image (media_type : String) (data : String)
deriving DecidableEq, Repr

/-- The `q_text` f-string for question `q` at 1-based payload position
`pos` (app.py 3852-3860). -/
def q_text (pos : Nat) (q : Item) (image_marker : String) : String :=
  "\n--- Q" ++ toString pos ++ " ---\n" ++ image_marker ++
  "Question: " ++ q.question.getD "" ++ "\nOptions:\n" ++
  String.intercalate "\n" ((q.options.getD []).enum.map (fun p =>
    "  " ++ String.mk [Char.ofNat (65 + p.1)] ++ ". " ++ p.2)) ++
  "\nCorrect Answer: " ++ q.correct_option.getD "" ++
  "\nExplanation: " ++ q.explanation.getD "" ++
  "\nTags: " ++ String.intercalate ", " (q.tags.getD []) ++ "\n"

/-- The blocks contributed by one valid question (app.py 3845-3876):
the question text (with the embedded-image marker when applicable),
followed by the image block or the load-failure text. -/
def qItemBlocks (avail : String → Bool)
    (loadImage : String → Option (String × String)) (pos : Nat) (q : Item) :
    List Block :=
  let image_url := q.image_url.getD ""
  let has_image : Bool := (image_url != "") && avail image_url
  let image_marker := if has_image then
    "[IMAGE FOR THIS QUESTION IS EMBEDDED BELOW — evaluate it as part of the question]\n"
    else ""
  Block.text (q_text pos q image_marker) ::
    (if has_image then
      match loadImage image_url with
      | some (img_data, media_type) => [Block.image media_type img_data]
      | none =>
        [Block.text "[IMAGE LOAD FAILED — treat question as having a missing image]\n"]
    else [])

/-- The full qbank `content_payload`: blocks of the valid items in order,
positions numbered from 1.  Every batch payload sent to the review LLM is
a contiguous slice of this list (app.py 3915-3917), so membership in a
batch payload implies membership here. -/
def content_payload_qbank (avail : String → Bool)
    (loadImage : String → Option (String × String)) (vItems : List Item) :
    List Block :=
  vItems.enum.flatMap (fun p => qItemBlocks avail loadImage (p.1 + 1) p.2)

/-- Claim C6: a qbank item whose question text matches the
spatial-reference regex while its `image_url` is empty appears in the
output as the fixed structural-failure stand-in at its original index
(`structural_failure = true`, validator score 2, `needs_revision` true,
adversarial sentinel), is excluded from `valid_indices`, and every block
of the payload sent to the review LLM (validator and adversarial calls
share it) comes from an item at a valid index — hence never from this
item. -/
theorem C6_structural_bypass (imageRef avail : String → Bool)
    (loadImage : String → Option (String × String))
    (items : List Item) (order : List BatchResult) (i : Nat) (q : Item)
    (hi : items[i]? = some q)
    (hmatch : imageRef (q.question.getD "") = true)
    (hempty : q.image_url.getD "" = "") :
    ∃ out, validate_content imageRef avail "qbank" items order = some out ∧
      out[i]? = some (_make_structural_failure (i + 1) (q.question.getD "")
        "Question references an image but no image is attached") ∧
      (_make_structural_failure (i + 1) (q.question.getD "")
        "Question references an image but no image is attached").structural_failure = true ∧
      (_make_structural_failure (i + 1) (q.question.getD "")
        "Question references an image but no image is attached").validator.overall_accuracy_score
        = some 2 ∧
      (_make_structural_failure (i + 1) (q.question.getD "")
        "Question references an image but no image is attached").validator.needs_revision
        = some true ∧
      (_make_structural_failure (i + 1) (q.question.getD "")
        "Question references an image but no image is attached").adversarial.breakability_rating
        = some "N/A — structural failure, adversarial review skipped" ∧
      i ∉ valid_indices imageRef avail "qbank" items ∧
      (∀ blk ∈ content_payload_qbank avail loadImage
          (valid_items imageRef avail "qbank" items),
        ∃ j, j ∈ valid_indices imageRef avail "qbank" items ∧
          ∃ it, items[j]? = some it ∧
            ∃ pos, blk ∈ qItemBlocks avail loadImage pos it) := by
  have hne : items ≠ [] := by
    intro h
    subst h
    simp at hi
  have hpre : pre_scored imageRef avail "qbank" items i =
      some (_make_structural_failure (i + 1) (q.question.getD "")
        "Question references an image but no image is attached") := by
    unfold pre_scored
    rw [if_pos rfl, hi]
    unfold preScreenItem
    dsimp only
    simp [hempty, hmatch]
  have hi_lt : i < items.length := by
    by_contra hlt
    push_neg at hlt
    rw [List.getElem?_eq_none hlt] at hi
    cases hi
  unfold validate_content
  rw [if_neg hne, if_neg (by simp)]
  refine ⟨_, rfl, ?_, rfl, rfl, rfl, rfl, ?_, ?_⟩
  · rw [mergeLoop_getElem? _ _ _ _ _ i 0 0 hi_lt]
    simp [mergedEntry, hpre]
  · intro hmem
    rw [valid_indices, List.mem_filter] at hmem
    rw [hpre] at hmem
    simp at hmem
  · intro blk hblk
    unfold content_payload_qbank at hblk
    rw [List.mem_flatMap] at hblk
    obtain ⟨p, hp, hblk⟩ := hblk
    have hp2 : p.2 ∈ valid_items imageRef avail "qbank" items := by
      rw [List.mem_enum_iff_getElem?] at hp
      exact List.getElem?_mem hp
    rw [valid_items, List.mem_filterMap] at hp2
    obtain ⟨j, hj, hjit⟩ := hp2
    exact ⟨j, hj, p.2, hjit, p.1 + 1, hblk⟩

theorem C6_structural_bypass_witness :
    ∃ out, validate_content (fun s => s == "shown below") (fun _ => false) "qbank"
        [{ question := some "shown below" }] [] = some out ∧
      out[0]? = some (_make_structural_failure 1 "shown below"
        "Question references an image but no image is attached") ∧
      (_make_structural_failure 1 "shown below"
        "Question references an image but no image is attached").structural_failure = true ∧
      (_make_structural_failure 1 "shown below"
        "Question references an image but no image is attached").validator.overall_accuracy_score
        = some 2 ∧
      (_make_structural_failure 1 "shown below"
        "Question references an image but no image is attached").validator.needs_revision
        = some true ∧
      (_make_structural_failure 1 "shown below"
        "Question references an image but no image is attached").adversarial.breakability_rating
        = some "N/A — structural failure, adversarial review skipped" ∧
      0 ∉ valid_indices (fun s => s == "shown below") (fun _ => false) "qbank"
        [{ question := some "shown below" }] ∧
      (∀ blk ∈ content_payload_qbank (fun _ => false) (fun _ => none)
          (valid_items (fun s => s == "shown below") (fun _ => false) "qbank"
            [{ question := some "shown below" }]),
        ∃ j, j ∈ valid_indices (fun s => s == "shown below") (fun _ => false) "qbank"
          [{ question := some "shown below" }] ∧
          ∃ it, ([({ question := some "shown below" } : Item)])[j]? = some it ∧
            ∃ pos, blk ∈ qItemBlocks (fun _ => false) (fun _ => none) pos it) := by
  have h := C6_structural_bypass (fun s => s == "shown below") (fun _ => false)
    (fun _ => none) [{ question := some "shown below" }] [] 0
    { question := some "shown below" } rfl (by decide) rfl
  simpa using h

/-! ### `search_and_validate_image` (app.py 1357-1495) with the cache
(`get_cached_image` / `cache_image`, app.py 98-113)

External effects are an environment fixed for the duration of the calls:
the candidate list returned by `collect_candidate_images`, the per-index
vision score, the Gemini client/result, and the outcome of the
marker-annotation steps (download + `add_visual_markers_to_image`,
collapsed to the basename of the marked file when the whole branch
succeeds).  The cache is an explicit association list keyed by
`get_cache_key`; counters record how many external search, scoring and
generation calls a resolution performs. -/

/-- A resolved image `{url, source, title}`. -/
structure ImageDescriptor where
  url : String
  source : String
  title : String
deriving DecidableEq, Repr

/-- The external world during an image resolution. -/
structure ImgEnv where
  candidates : List ImageDescriptor
  score : Nat → Int
  geminiClient : Bool
  geminiResult : Option ImageDescriptor
  markerInternet : Option String
  markerGemini : Option String

/-- The image cache: key/value pairs, newest first (a Python dict with
last-write-wins lookup). -/
abbrev Cache : Type := List (String × ImageDescriptor)

/-- Dict lookup. -/
def cacheLookup (c : Cache) (k : String) : Option ImageDescriptor :=
  (List.find? (fun p => p.1 == k) c).map (fun p => p.2)

/-- Dict overwrite (`cache[cache_key] = image_data`). -/
def cacheInsert (c : Cache) (k : String) (v : ImageDescriptor) : Cache :=
  (k, v) :: c

/-- `get_cached_image(search_terms, image_type)` (app.py 98-105);
`image_type or ''` is the identity on strings. -/
def get_cached_image (c : Cache) (search_terms : List String)
    (image_type : String) : Option ImageDescriptor :=
  cacheLookup c (get_cache_key search_terms image_type)

/-- `cache_image(search_terms, image_type, image_data)` (app.py 107-113). -/
def cache_image (c : Cache) (search_terms : List String) (image_type : String)
    (v : ImageDescriptor) : Cache :=
  cacheInsert c (get_cache_key search_terms image_type) v

/-- Counts of external calls made by one resolution. -/
structure Calls where
  searches : Nat := 0
  scorings : Nat := 0
  generations : Nat := 0
deriving DecidableEq, Repr

/-- The query-side inputs of `search_and_validate_image`. -/
structure QuestionData where
  image_search_terms : List String := []
  image_type : String := ""
  question : String := ""
  image_description : String := ""
deriving DecidableEq, Repr

/-- `max(scored, key=score)`: first maximum. -/
def argmaxScore (first : ImageDescriptor × Int) (rest : List (ImageDescriptor × Int)) :
    ImageDescriptor × Int :=
  rest.foldl (fun best p => if p.2 > best.2 then p else best) first

/-- The marker step on the internet-image branch (app.py 1429-1451):
download the chosen url, run `add_visual_markers_to_image`; when it
returns a marked file the result url becomes `/static/<basename>` and the
source gains " (with markers)"; on any failure the result is unchanged. -/
def applyMarkersInternet (env : ImgEnv) (qd : QuestionData)
    (r : ImageDescriptor) : ImageDescriptor :=
  if qd.question ≠ "" ∧ qd.image_description ≠ "" then
    match env.markerInternet with
    | some p => { url := "/static/" ++ p, source := r.source ++ " (with markers)", title := r.title }
    | none => r
  else r

/-- The marker step on the Gemini branch (app.py 1460-1481). -/
def applyMarkersGemini (env : ImgEnv) (qd : QuestionData)
    (r : ImageDescriptor) : ImageDescriptor :=
  if qd.question ≠ "" ∧ qd.image_description ≠ "" ∧ r.url ≠ "" then
    match env.markerGemini with
    | some p => { url := "/static/" ++ p, source := r.source ++ " (with markers)", title := r.title }
    | none => r
  else r

/-- `search_and_validate_image(question_data, subject)` (app.py
1357-1495): cache check; candidate collection; per-candidate vision
scoring; best-candidate selection at threshold 80; Gemini fallback;
last-resort degradation to the best candidate.  On the internet branch the
result is cached BEFORE the marker step mutates it (line 1421 vs
1429-1448); on the Gemini branch markers are applied before caching.
Returns (result, new cache, external-call counts). -/
def search_and_validate_image (env : ImgEnv) (cache : Cache)
    (qd : QuestionData) : Option ImageDescriptor × Cache × Calls :=
  if qd.image_search_terms = [] then (none, cache, {})
  else
    match get_cached_image cache qd.image_search_terms qd.image_type with
    | some cached => (some cached, cache, {})
    | none =>
      match env.candidates with
      | [] =>
        if env.geminiClient then
          match env.geminiResult with
          | some r =>
            (some r, cache_image cache qd.image_search_terms qd.image_type r,
             { searches := 1, generations := 1 })
          | none => (none, cache, { searches := 1, generations := 1 })
        else (none, cache, { searches := 1 })
      | c0 :: crest =>
        let scored := (c0 :: crest).enum.map (fun p => (p.2, env.score p.1))
        let nScore := crest.length + 1
        let best := argmaxScore (c0, env.score 0) scored
        if best.2 ≥ 80 then
          let result0 : ImageDescriptor :=
            { url := best.1.url, source := best.1.source, title := best.1.title }
          let cache1 := cache_image cache qd.image_search_terms qd.image_type result0
          (some (applyMarkersInternet env qd result0), cache1,
           { searches := 1, scorings := nScore })
        else
          match (if env.geminiClient then env.geminiResult else none) with
          | some r0 =>
            let r := applyMarkersGemini env qd r0
            (some r, cache_image cache qd.image_search_terms qd.image_type r,
             { searches := 1, scorings := nScore, generations := 1 })
          | none =>
            let result : ImageDescriptor :=
              { url := best.1.url, source := best.1.source, title := best.1.title }
            (some result, cache_image cache qd.image_search_terms qd.image_type result,
             { searches := 1, scorings := nScore,
               generations := if env.geminiClient then 1 else 0 })

theorem cacheLookup_insert (c : Cache) (k : String) (v : ImageDescriptor) :
    cacheLookup (cacheInsert c k v) k = some v := by
  simp [cacheLookup, cacheInsert, List.find?]

theorem get_cached_after_cache_image (c : Cache) (terms : List String)
    (ty : String) (v : ImageDescriptor) :
    get_cached_image (cache_image c terms ty v) terms ty = some v :=
  cacheLookup_insert c (get_cache_key terms ty) v

/-- A resolution that finds the key in the cache returns the cached
descriptor unchanged and performs no external call. -/
theorem resolve_cache_hit (env : ImgEnv) (cache : Cache) (qd : QuestionData)
    (d : ImageDescriptor) (hterms : qd.image_search_terms ≠ [])
    (hhit : get_cached_image cache qd.image_search_terms qd.image_type = some d) :
    search_and_validate_image env cache qd = (some d, cache, {}) := by
  unfold search_and_validate_image
  rw [if_neg hterms, hhit]

/-- On a cache miss with the marker step disabled, a successful first
resolution writes exactly the returned descriptor to the cache and
performs one search. -/
theorem resolve_miss_caches_result (env : ImgEnv) (cache : Cache)
    (qd : QuestionData) (d : ImageDescriptor)
    (hterms : qd.image_search_terms ≠ [])
    (hmiss : get_cached_image cache qd.image_search_terms qd.image_type = none)
    (hnomark : qd.question = "" ∨ qd.image_description = "")
    (hres : (search_and_validate_image env cache qd).1 = some d) :
    (search_and_validate_image env cache qd).2.1 =
      cache_image cache qd.image_search_terms qd.image_type d ∧
    (search_and_validate_image env cache qd).2.2.searches = 1 := by
  have hmarkI : ∀ r, applyMarkersInternet env qd r = r := by
    intro r
    unfold applyMarkersInternet
    rcases hnomark with h | h <;> simp [h]
  have hmarkG : ∀ r, applyMarkersGemini env qd r = r := by
    intro r
    unfold applyMarkersGemini
    rcases hnomark with h | h <;> simp [h]
  revert hres
  unfold search_and_validate_image
  rw [if_neg hterms, hmiss]
  cases hc : env.candidates with
  | nil =>
    by_cases hg : env.geminiClient
    · rw [if_pos hg]
      cases hr : env.geminiResult with
      | none =>
        intro hres
        cases hres
      | some r =>
        intro hres
        cases hres
        exact ⟨rfl, rfl⟩
    · rw [if_neg hg]
      intro hres
      cases hres
  | cons c0 crest =>
    dsimp only
    by_cases hb : (argmaxScore (c0, env.score 0)
        ((c0 :: crest).enum.map (fun p => (p.2, env.score p.1)))).2 ≥ 80
    · rw [if_pos hb, hmarkI]
      intro hres
      cases hres
      exact ⟨rfl, rfl⟩
    · rw [if_neg hb]
      cases hgr : (if env.geminiClient then env.geminiResult else none) with
      | some r0 =>
        dsimp only
        rw [hmarkG]
        intro hres
        cases hres
        exact ⟨rfl, rfl⟩
      | none =>
        intro hres
        cases hres
        exact ⟨rfl, rfl⟩

/-- Claim C9 (amended): on a fresh cache entry, when the first resolution
succeeds and the spatial-marker step does not run (empty question or
image-description), the first call performs exactly one external search
sequence and the second call performs no external search, scoring or
generation, is served from the cache, and returns the identical
descriptor. -/
theorem C9_amended_cache_idempotence (env : ImgEnv) (cache : Cache)
    (qd : QuestionData) (d : ImageDescriptor)
    (hterms : qd.image_search_terms ≠ [])
    (hmiss : get_cached_image cache qd.image_search_terms qd.image_type = none)
    (hnomark : qd.question = "" ∨ qd.image_description = "")
    (hres : (search_and_validate_image env cache qd).1 = some d) :
    (search_and_validate_image env cache qd).2.2.searches = 1 ∧
    search_and_validate_image env ((search_and_validate_image env cache qd).2.1) qd =
      (some d, (search_and_validate_image env cache qd).2.1, ({} : Calls)) := by
  obtain ⟨hcache, hsearch⟩ :=
    resolve_miss_caches_result env cache qd d hterms hmiss hnomark hres
  refine ⟨hsearch, ?_⟩
  rw [hcache]
  exact resolve_cache_hit env _ qd d hterms (get_cached_after_cache_image _ _ _ _)

/-- Concrete environment for the C9 counterexample: one internet candidate
scoring 90, markers applied on the internet branch. -/
def c9env : ImgEnv :=
  { candidates := [{ url := "http://img", source := "Open-i (NIH)", title := "t" }]
    score := fun _ => 90
    geminiClient := false
    geminiResult := none
    markerInternet := some "marked.png"
    markerGemini := none }

/-- Query with spatial-marker inputs present (question and description
nonempty), so the marker step runs. -/
def c9qd : QuestionData :=
  { image_search_terms := ["lung"], image_type := "X-ray"
    question := "What is shown?", image_description := "a lesion" }

/-- Query with the marker step disabled (empty question). -/
def c9qdNoMark : QuestionData :=
  { image_search_terms := ["lung"], image_type := "X-ray" }

/-- Claim C9 (counterexample): on the internet branch the result is cached
at line 1421 BEFORE the marker step mutates its url (lines 1429-1448), so
the first resolution returns the marked descriptor while the cache holds
the unmarked one; the second resolution is a cache hit (no external calls)
but returns a DIFFERENT descriptor than the first. -/
theorem C9_counterexample_marker_mutation :
    (search_and_validate_image c9env [] c9qd).1 =
      some { url := "/static/marked.png", source := "Open-i (NIH) (with markers)",
             title := "t" } ∧
    (search_and_validate_image c9env
        ((search_and_validate_image c9env [] c9qd).2.1) c9qd).1 =
      some { url := "http://img", source := "Open-i (NIH)", title := "t" } ∧
    (search_and_validate_image c9env
        ((search_and_validate_image c9env [] c9qd).2.1) c9qd).1 ≠
      (search_and_validate_image c9env [] c9qd).1 ∧
    (search_and_validate_image c9env
        ((search_and_validate_image c9env [] c9qd).2.1) c9qd).2.2 = ({} : Calls) := by
  set_option maxRecDepth 80000 in decide

theorem C9_amended_cache_idempotence_witness :
    c9qdNoMark.image_search_terms ≠ [] ∧
    get_cached_image [] c9qdNoMark.image_search_terms c9qdNoMark.image_type = none ∧
    (c9qdNoMark.question = "" ∨ c9qdNoMark.image_description = "") ∧
    (search_and_validate_image c9env [] c9qdNoMark).1 =
      some { url := "http://img", source := "Open-i (NIH)", title := "t" } ∧
    (search_and_validate_image c9env [] c9qdNoMark).2.2.searches = 1 ∧
    search_and_validate_image c9env
        ((search_and_validate_image c9env [] c9qdNoMark).2.1) c9qdNoMark =
      (some { url := "http://img", source := "Open-i (NIH)", title := "t" },
       (search_and_validate_image c9env [] c9qdNoMark).2.1, ({} : Calls)) := by
  have h := C9_amended_cache_idempotence c9env [] c9qdNoMark
    { url := "http://img", source := "Open-i (NIH)", title := "t" }
    (by decide) rfl (Or.inl rfl) (by decide)
  exact ⟨by decide, rfl, Or.inl rfl, by decide, h.1, h.2⟩

/-! ### `_extract_json_array` (app.py 3687-3731)

A JSON value parser modelling `json.JSONDecoder().raw_decode(s, idx)`:
anchored at the given position (no leading whitespace), tolerating
trailing text, strict strings (unescaped control characters rejected),
JSON numbers per the scanner's regex, and the default acceptance of
`NaN`/`Infinity`/`-Infinity`.  Parsed strings keep decoded characters
(surrogate pairs combined; a lone surrogate, unrepresentable as a Lean
`Char`, degrades to `Char.ofNat`'s fallback — it never affects parse
success).  Numbers keep their source lexeme. -/

/-- A parsed JSON value. -/
inductive Json where
  | null
  | bool (b : Bool)
  | num (lexeme : String)
  | str (s : String)
  | arr (elems : List Json)
  | obj (fields : List (String × Json))

/-- JSON whitespace, as in Python's `json` module. -/
def isWS (c : Char) : Bool := c = ' ' || c = '\t' || c = '\n' || c = '\r'

def skipWS : List Char → List Char
  | [] => []
  | c :: rest => if isWS c then skipWS rest else c :: rest

def isDigit (c : Char) : Bool := 48 ≤ c.toNat && c.toNat ≤ 57

def hexVal (c : Char) : Option Nat :=
  if 48 ≤ c.toNat ∧ c.toNat ≤ 57 then some (c.toNat - 48)
  else if 97 ≤ c.toNat ∧ c.toNat ≤ 102 then some (c.toNat - 87)
  else if 65 ≤ c.toNat ∧ c.toNat ≤ 70 then some (c.toNat - 55)
  else none

/-- Single-character escapes of `py_scanstring`. -/
def escChar : Char → Option Char
  | '"' => some '"'
  | '\\' => some '\\'
  | '/' => some '/'
  | 'b' => some (Char.ofNat 8)
  | 'f' => some (Char.ofNat 12)
  | 'n' => some '\n'
  | 'r' => some '\r'
  | 't' => some '\t'
  | _ => none

def hex4 (h1 h2 h3 h4 : Char) : Option Nat :=
  match hexVal h1, hexVal h2, hexVal h3, hexVal h4 with
  | some a, some b, some c, some d => some (4096 * a + 256 * b + 16 * c + d)
  | _, _, _, _ => none

/-- The string body scanner (`py_scanstring`, strict mode), entered after
the opening quote: returns the decoded characters and the remainder after
the closing quote. -/
def parseStringBody : List Char → Option (List Char × List Char)
  | [] => none
  | '"' :: rest => some ([], rest)
  | '\\' :: 'u' :: h1 :: h2 :: h3 :: h4 :: '\\' :: 'u' :: g1 :: g2 :: g3 :: g4 :: rest2 =>
    match hex4 h1 h2 h3 h4 with
    | none => none
    | some n =>
      if 0xD800 ≤ n ∧ n ≤ 0xDBFF then
        match hex4 g1 g2 g3 g4 with
        | none => none
        | some m =>
          if 0xDC00 ≤ m ∧ m ≤ 0xDFFF then
            (parseStringBody rest2).map (fun p =>
              (Char.ofNat (0x10000 + (n - 0xD800) * 1024 + (m - 0xDC00)) :: p.1, p.2))
          else
            (parseStringBody ('\\' :: 'u' :: g1 :: g2 :: g3 :: g4 :: rest2)).map
              (fun p => (Char.ofNat n :: p.1, p.2))
      else
        (parseStringBody ('\\' :: 'u' :: g1 :: g2 :: g3 :: g4 :: rest2)).map
          (fun p => (Char.ofNat n :: p.1, p.2))
  | '\\' :: 'u' :: h1 :: h2 :: h3 :: h4 :: rest =>
    match hex4 h1 h2 h3 h4 with
    | none => none
    | some n => (parseStringBody rest).map (fun p => (Char.ofNat n :: p.1, p.2))
  | '\\' :: e :: rest =>
    match escChar e with
    | some c => (parseStringBody rest).map (fun p => (c :: p.1, p.2))
    | none => none
  | c :: rest =>
    if c.toNat < 32 then none
    else (parseStringBody rest).map (fun p => (c :: p.1, p.2))

/-- Leading decimal digits. -/
def lexDigits : List Char → List Char × List Char
  | [] => ([], [])
  | c :: rest =>
    if isDigit c then
      let p := lexDigits rest
      (c :: p.1, p.2)
    else ([], c :: rest)

/-- Integer part per the scanner regex `(?:0|[1-9]\d*)`. -/
def lexIntPart : List Char → Option (List Char × List Char)
  | [] => none
  | c :: rest =>
    if c = '0' then some (['0'], rest)
    else if isDigit c then
      let p := lexDigits rest
      some (c :: p.1, p.2)
    else none

/-- Optional fraction `(\.\d+)?`. -/
def lexFrac : List Char → List Char × List Char
  | '.' :: r =>
    match lexDigits r with
    | ([], _) => ([], '.' :: r)
    | (ds, r2) => ('.' :: ds, r2)
  | s => ([], s)

/-- Optional exponent `([eE][-+]?\d+)?`. -/
def lexExp : List Char → List Char × List Char
  | e :: r =>
    if e = 'e' ∨ e = 'E' then
      match r with
      | sgn :: r2 =>
        if sgn = '+' ∨ sgn = '-' then
          match lexDigits r2 with
          | ([], _) => ([], e :: sgn :: r2)
          | (ds, r3) => (e :: sgn :: ds, r3)
        else
          match lexDigits r with
          | ([], _) => ([], e :: r)
          | (ds, r3) => (e :: ds, r3)
      | [] => ([], [e])
    else ([], e :: r)
  | [] => ([], [])

/-- The number token of the scanner's `NUMBER_RE`. -/
def lexNumber (s : List Char) : Option (List Char × List Char) :=
  let sp : List Char × List Char :=
    match s with
    | '-' :: r => (['-'], r)
    | _ => ([], s)
  match lexIntPart sp.2 with
  | none => none
  | some (ip, r1) =>
    let f := lexFrac r1
    let e := lexExp f.2
    some (sp.1 ++ ip ++ f.1 ++ e.1, e.2)

mutual

/-- `scan_once`, anchored at the head of `s` (no leading whitespace
allowed, like `raw_decode`); dispatch order as in the Python scanner. -/
def parseValue : Nat → List Char → Option (Json × List Char)
  | 0, _ => none
  | fuel + 1, s =>
    match s with
    | [] => none
    | c :: rest =>
      if c = '"' then
        (parseStringBody rest).map (fun p => (Json.str (String.mk p.1), p.2))
      else if c = '{' then
        parseObjBody fuel (skipWS rest)
      else if c = '[' then
        parseArrBody fuel (skipWS rest)
      else if s.take 4 = ['n', 'u', 'l', 'l'] then some (.null, s.drop 4)
      else if s.take 4 = ['t', 'r', 'u', 'e'] then some (.bool true, s.drop 4)
      else if s.take 5 = ['f', 'a', 'l', 's', 'e'] then some (.bool false, s.drop 5)
      else
        match lexNumber s with
        | some (lex, r) => some (.num (String.mk lex), r)
        | none =>
          if s.take 3 = ['N', 'a', 'N'] then some (.num "NaN", s.drop 3)
          else if s.take 8 = ['I', 'n', 'f', 'i', 'n', 'i', 't', 'y'] then
            some (.num "Infinity", s.drop 8)
          else if s.take 9 = ['-', 'I', 'n', 'f', 'i', 'n', 'i', 't', 'y'] then
            some (.num "-Infinity", s.drop 9)
          else none

/-- Array body, entered after `[` with leading whitespace skipped. -/
def parseArrBody : Nat → List Char → Option (Json × List Char)
  | 0, _ => none
  | fuel + 1, s =>
    match s with
    | ']' :: r => some (.arr [], r)
    | _ =>
      match parseArrItems fuel s with
      | some (items, r) => some (.arr items, r)
      | none => none

/-- Comma-separated array elements up to the closing `]`. -/
def parseArrItems : Nat → List Char → Option (List Json × List Char)
  | 0, _ => none
  | fuel + 1, s =>
    match parseValue fuel s with
    | none => none
    | some (v, r) =>
      match skipWS r with
      | ',' :: r2 =>
        match parseArrItems fuel (skipWS r2) with
        | some (items, r3) => some (v :: items, r3)
        | none => none
      | ']' :: r2 => some ([v], r2)
      | _ => none

/-- Object body, entered after `{` with leading whitespace skipped. -/
def parseObjBody : Nat → List Char → Option (Json × List Char)
  | 0, _ => none
  | fuel + 1, s =>
    match s with
    | '}' :: r => some (.obj [], r)
    | _ =>
      match parseObjMembers fuel s with
      | some (fields, r) => some (.obj fields, r)
      | none => none

/-- Comma-separated `"key": value` members up to the closing `}`. -/
def parseObjMembers : Nat → List Char → Option (List (String × Json) × List Char)
  | 0, _ => none
  | fuel + 1, s =>
    match s with
    | '"' :: r =>
      match parseStringBody r with
      | none => none
      | some (key, r1) =>
        match skipWS r1 with
        | ':' :: r2 =>
          match parseValue fuel (skipWS r2) with
          | none => none
          | some (v, r3) =>
            match skipWS r3 with
            | ',' :: r4 =>
              match parseObjMembers fuel (skipWS r4) with
              | some (fields, r5) => some ((String.mk key, v) :: fields, r5)
              | none => none
            | '}' :: r4 => some ([(String.mk key, v)], r4)
            | _ => none
        | _ => none
    | _ => none

end

/-- `json.JSONDecoder().raw_decode(s)`: the first complete JSON value
anchored at the start of `s`, trailing text ignored.  The fuel
`2*|s| + 8` dominates the recursion depth (every two fuel steps consume at
least one character). -/
def rawDecode (s : List Char) : Option Json :=
  (parseValue (2 * s.length + 8) s).map (fun p => p.1)

/-- `_try_parse(s, start_char)`: scan for occurrences of `start_char` left
to right and return the first successful `raw_decode` anchored there. -/
def tryParse (s : List Char) (c : Char) : Option Json :=
  match s with
  | [] => none
  | x :: rest =>
    if x = c then
      match rawDecode (x :: rest) with
      | some j => some j
      | none => tryParse rest c
    else tryParse rest c

/-- Python dict lookup over the parsed field list: later duplicate keys
overwrite earlier ones. -/
def objGet (fields : List (String × Json)) (k : String) : Option Json :=
  (fields.reverse.find? (fun p => p.1 == k)).map (fun p => p.2)

def isArrJson : Option Json → Bool
  | some (Json.arr _) => true
  | _ => false

def getArrJson : Option Json → List Json
  | some (Json.arr xs) => xs
  | _ => []

/-- The object-unwrapping rule of `_normalise`: the list under the first
of the keys `sections`, `items`, `questions`, `results`, `data` that maps
to a list, else the object wrapped as a one-element list. -/
def normaliseObj (fields : List (String × Json)) : List Json :=
  match ["sections", "items", "questions", "results", "data"].find?
      (fun k => isArrJson (objGet fields k)) with
  | some k => getArrJson (objGet fields k)
  | none => [Json.obj fields]

/-- `_normalise(parsed)`. -/
def normalise : Option Json → Option (List Json)
  | some (Json.arr xs) => some xs
  | some (Json.obj fields) => some (normaliseObj fields)
  | some _ => none
  | none => none

/-- `_extract_json_array(text, expected_count)` (app.py 3687-3731): first
a JSON array anywhere in the text, then a JSON object (unwrapped), else
`[]`.  The `expected_count` argument is only used for logging. -/
def _extract_json_array (text : String) (expected_count : Nat) : List Json :=
  if text = "" then []
  else
    match normalise (tryParse text.data '[') with
    | some r => r
    | none =>
      match normalise (tryParse text.data '{') with
      | some r => r
      | none => []

/-! ### Claim C7: the Response Extractor against its specification

Spec-side reading of the claim: the first position (scanning left to
right) at which `raw_decode` yields a JSON array; else the first position
yielding an object, unwrapped by the conventional keys; else `[]`. -/

/-- The first parseable JSON array embedded anywhere in the text. -/
def firstArrayAt : List Char → Option (List Json)
  | [] => none
  | x :: rest =>
    match rawDecode (x :: rest) with
    | some (Json.arr xs) => some xs
    | _ => firstArrayAt rest

/-- The first parseable JSON object embedded anywhere in the text. -/
def firstObjAt : List Char → Option (List (String × Json))
  | [] => none
  | x :: rest =>
    match rawDecode (x :: rest) with
    | some (Json.obj fs) => some fs
    | _ => firstObjAt rest

/-- The claim's extraction contract: the first parseable JSON array
anywhere in the text; when no array parses but an object does, the list
under the first of the keys `sections`, `items`, `questions`, `results`,
`data` that maps to a list, or the object wrapped as a one-element list;
and `[]` when neither parses (in particular when nothing parses at all). -/
def specExtract (text : String) : List Json :=
  match firstArrayAt text.data with
  | some xs => xs
  | none =>
    match firstObjAt text.data with
    | some fs => normaliseObj fs
    | none => []

theorem parseArrBody_shape (fuel : Nat) (s : List Char) (j : Json)
    (r : List Char) (h : parseArrBody fuel s = some (j, r)) :
    ∃ xs, j = Json.arr xs := by
  match fuel with
  | 0 => simp [parseArrBody] at h
  | fuel + 1 =>
    simp only [parseArrBody] at h
    split at h
    · cases h
      exact ⟨[], rfl⟩
    · split at h
      · cases h
        exact ⟨_, rfl⟩
      · simp at h

theorem parseObjBody_shape (fuel : Nat) (s : List Char) (j : Json)
    (r : List Char) (h : parseObjBody fuel s = some (j, r)) :
    ∃ fs, j = Json.obj fs := by
  match fuel with
  | 0 => simp [parseObjBody] at h
  | fuel + 1 =>
    simp only [parseObjBody] at h
    split at h
    · cases h
      exact ⟨[], rfl⟩
    · split at h
      · cases h
        exact ⟨_, rfl⟩
      · simp at h

theorem parseValue_arr_head (fuel : Nat) (s : List Char) (xs : List Json)
    (r : List Char) (h : parseValue fuel s = some (Json.arr xs, r)) :
    ∃ rest, s = '[' :: rest := by
  match fuel, s with
  | 0, _ => simp [parseValue] at h
  | fuel + 1, [] => simp [parseValue] at h
  | fuel + 1, c :: rest =>
    simp only [parseValue] at h
    by_cases h1 : c = '"'
    · rw [if_pos h1] at h
      cases hps : parseStringBody rest <;> rw [hps] at h <;> simp at h
    · rw [if_neg h1] at h
      by_cases h2 : c = '{'
      · rw [if_pos h2] at h
        obtain ⟨fs, hfs⟩ := parseObjBody_shape _ _ _ _ h
        cases hfs
      · rw [if_neg h2] at h
        by_cases h3 : c = '['
        · exact ⟨rest, by rw [h3]⟩
        · rw [if_neg h3] at h
          split at h
          · cases h
          · split at h
            · cases h
            · split at h
              · cases h
              · split at h
                · cases h
                · split at h
                  · cases h
                  · split at h
                    · cases h
                    · split at h
                      · cases h
                      · cases h

theorem parseValue_obj_head (fuel : Nat) (s : List Char)
    (fs : List (String × Json)) (r : List Char)
    (h : parseValue fuel s = some (Json.obj fs, r)) :
    ∃ rest, s = '{' :: rest := by
  match fuel, s with
  | 0, _ => simp [parseValue] at h
  | fuel + 1, [] => simp [parseValue] at h
  | fuel + 1, c :: rest =>
    simp only [parseValue] at h
    by_cases h1 : c = '"'
    · rw [if_pos h1] at h
      cases hps : parseStringBody rest <;> rw [hps] at h <;> simp at h
    · rw [if_neg h1] at h
      by_cases h2 : c = '{'
      · exact ⟨rest, by rw [h2]⟩
      · rw [if_neg h2] at h
        by_cases h3 : c = '['
        · rw [if_pos h3] at h
          obtain ⟨ys, hys⟩ := parseArrBody_shape _ _ _ _ h
          cases hys
        · rw [if_neg h3] at h
          split at h
          · cases h
          · split at h
            · cases h
            · split at h
              · cases h
              · split at h
                · cases h
                · split at h
                  · cases h
                  · split at h
                    · cases h
                    · split at h
                      · cases h
                      · cases h

theorem rawDecode_arr_head {s : List Char} {xs : List Json}
    (h : rawDecode s = some (Json.arr xs)) : ∃ rest, s = '[' :: rest := by
  unfold rawDecode at h
  obtain ⟨⟨j, r⟩, hp, h1⟩ := Option.map_eq_some'.mp h
  dsimp only at h1
  subst h1
  exact parseValue_arr_head _ _ _ _ hp

theorem rawDecode_obj_head {s : List Char} {fs : List (String × Json)}
    (h : rawDecode s = some (Json.obj fs)) : ∃ rest, s = '{' :: rest := by
  unfold rawDecode at h
  obtain ⟨⟨j, r⟩, hp, h1⟩ := Option.map_eq_some'.mp h
  dsimp only at h1
  subst h1
  exact parseValue_obj_head _ _ _ _ hp

theorem rawDecode_bracket_shape {rest : List Char} {j : Json}
    (h : rawDecode ('[' :: rest) = some j) : ∃ xs, j = Json.arr xs := by
  unfold rawDecode at h
  obtain ⟨⟨j', r⟩, hp, h1⟩ := Option.map_eq_some'.mp h
  dsimp only at h1
  subst h1
  have h0 := hp
  simp only [parseValue] at h0
  rw [if_true] at h0
  exact parseArrBody_shape _ _ _ _ h0

theorem rawDecode_brace_shape {rest : List Char} {j : Json}
    (h : rawDecode ('{' :: rest) = some j) : ∃ fs, j = Json.obj fs := by
  unfold rawDecode at h
  obtain ⟨⟨j', r⟩, hp, h1⟩ := Option.map_eq_some'.mp h
  dsimp only at h1
  subst h1
  have h0 := hp
  simp only [parseValue] at h0
  rw [if_true] at h0
  exact parseObjBody_shape _ _ _ _ h0

theorem tryParse_bracket (s : List Char) :
    tryParse s '[' = (firstArrayAt s).map Json.arr := by
  induction s with
  | nil => rfl
  | cons x rest ih =>
    simp only [tryParse, firstArrayAt]
    by_cases hx : x = '['
    · subst hx
      rw [if_pos rfl]
      cases hr : rawDecode ('[' :: rest) with
      | none => exact ih
      | some j =>
        obtain ⟨xs, rfl⟩ := rawDecode_bracket_shape hr
        rfl
    · rw [if_neg hx]
      cases hr : rawDecode (x :: rest) with
      | none => exact ih
      | some j =>
        cases j with
        | arr xs =>
          obtain ⟨rest', hre⟩ := rawDecode_arr_head hr
          injection hre with hh _
          exact absurd hh hx
        | null => exact ih
        | bool b => exact ih
        | num l => exact ih
        | str str => exact ih
        | obj fs => exact ih

theorem tryParse_brace (s : List Char) :
    tryParse s '{' = (firstObjAt s).map Json.obj := by
  induction s with
  | nil => rfl
  | cons x rest ih =>
    simp only [tryParse, firstObjAt]
    by_cases hx : x = '{'
    · subst hx
      rw [if_pos rfl]
      cases hr : rawDecode ('{' :: rest) with
      | none => exact ih
      | some j =>
        obtain ⟨fs, rfl⟩ := rawDecode_brace_shape hr
        rfl
    · rw [if_neg hx]
      cases hr : rawDecode (x :: rest) with
      | none => exact ih
      | some j =>
        cases j with
        | obj fs =>
          obtain ⟨rest', hre⟩ := rawDecode_obj_head hr
          injection hre with hh _
          exact absurd hh hx
        | null => exact ih
        | bool b => exact ih
        | num l => exact ih
        | str str => exact ih
        | arr xs => exact ih

/-- Claim C7: `_extract_json_array` returns exactly what the claim's
contract prescribes for every input text: the first parseable JSON array
embedded anywhere (despite surrounding prose or fences); failing that, the
first parseable object, unwrapped through the keys `sections`, `items`,
`questions`, `results`, `data` (first that maps to a list) or wrapped as a
one-element list; and `[]` when neither an array nor an object parses — in
particular when no JSON value in the text parses at all. -/
theorem C7_response_extractor (text : String) (n : Nat) :
    _extract_json_array text n = specExtract text := by
  by_cases ht : text = ""
  · subst ht
    rfl
  · unfold _extract_json_array specExtract
    rw [if_neg ht, tryParse_bracket, tryParse_brace]
    cases ha : firstArrayAt text.data with
    | some xs => rfl
    | none =>
      cases ho : firstObjAt text.data with
      | some fs => rfl
      | none => rfl

theorem extract_fenced_example :
    _extract_json_array "Here you go:\n```json\n[\x7b\"a\":1\x7d]\n```\nHope that helps!" 1 =
      [Json.obj [("a", Json.num "1")]] := by
  rfl

theorem extract_wrapped_object_example :
    _extract_json_array "\x7b\"items\": [\x7b\"a\":1\x7d,\x7b\"a\":2\x7d]\x7d" 2 =
      [Json.obj [("a", Json.num "1")], Json.obj [("a", Json.num "2")]] := by
  rfl

theorem extract_garbage_example :
    _extract_json_array "total garbage ] \x7d nope" 3 = [] := by
  rfl
